import Mathlib

/-!
Shallow embedding of the `py-killer-sudoku` repository
(`killer_sudoku/cage.py`, `killer_sudoku/killer_sudoku.py`, and the
`CageBuilder` callers in `test.py` / `evaluate.py`), together with proofs
about the claims of its specification.

Conventions:
* Python `int` is modelled by `ℤ`; a cell coordinate `(i, j)` by `ℤ × ℤ`.
* A Python function that can raise is modelled as `Except String α`,
  the string holding the description of the exception.
* Mutation is modelled by explicit state passing.
-/

namespace PyKiller

/-- A board cell coordinate, the Python `(i, j)` int tuple. -/
abbrev Cell := ℤ × ℤ

/-- Modelled from the spec: `killer_sudoku/static_data.py` is imported by
`cage.py` but is absent from the sources.  Per the spec the lookup table,
indexed by cell count `k`, holds the minimum possible sum of `k` distinct
digits, `k(k+1)/2`, and the maximum, the sum of the `k` largest digits
(`9 + 8 + ⋯`, i.e. `k(19-k)/2`). -/
def possible_cage_sum_min_max (k : ℕ) : ℤ × ℤ :=
  ((k * (k + 1) / 2 : ℕ), (k * (19 - k) / 2 : ℕ))

/-- A cage, as stored by `Cage.__init__` (`cage.py`): a declared sum and
the list of cell coordinates. -/
structure Cage where
  sum : ℤ
  cells : List Cell
deriving DecidableEq

/-- Embeds `Cage.__init__` (`cage.py` lines 17-30): the four validation checks
in source order; `raise ValueError(...)` is modelled as `Except.error`, and
the Python expression `len(set(cells))` is `cells.dedup.length`. -/
def Cage.init (s : ℤ) (cells : List Cell) : Except String Cage :=
  if cells.length < 1 ∨ cells.length > 9 then
    .error "Must have 1-9 cells in a cage"
  else if s < (possible_cage_sum_min_max cells.length).1 ∨
      s > (possible_cage_sum_min_max cells.length).2 then
    .error "cage sum out of range for its cell count"
  else if cells.dedup.length < cells.length then
    .error "List of cells provided must have unique values"
  else if cells.any (fun c =>
      decide (c.1 < 0) || decide (c.1 > 8) || decide (c.2 < 0) || decide (c.2 > 8)) then
    .error "cell out of bounds for a 9x9 puzzle"
  else
    .ok ⟨s, cells⟩

/-- The invariants that `Cage.init` establishes on every `Cage` it returns. -/
def CageValid (c : Cage) : Prop :=
  1 ≤ c.cells.length ∧ c.cells.length ≤ 9 ∧
  (possible_cage_sum_min_max c.cells.length).1 ≤ c.sum ∧
  c.sum ≤ (possible_cage_sum_min_max c.cells.length).2 ∧
  c.cells.Nodup ∧
  ∀ p ∈ c.cells, 0 ≤ p.1 ∧ p.1 ≤ 8 ∧ 0 ≤ p.2 ∧ p.2 ≤ 8

instance (c : Cage) : Decidable (CageValid c) := by
  unfold CageValid; infer_instance

/-- The default `board` argument of `KillerSudoku.__init__`: a 9x9 grid of 0s. -/
def defaultBoard : List (List ℤ) := List.replicate 9 (List.replicate 9 0)

/-- The Killer Sudoku object: the (deep-copied) board and cage list stored by
`KillerSudoku.__init__` (`killer_sudoku.py` lines 59-60).  The derived row,
column and subgrid groups and the neighbors map are functions of these and are
modelled as standalone definitions below. -/
structure KillerSudoku where
  board : List (List ℤ)
  cages : List Cage
deriving DecidableEq

/-- Embeds `KillerSudoku.__init__` (`killer_sudoku.py` lines 29-88): board-size check,
then the scan over all cage cells that rejects a cell seen twice, then the
check that the 81-cell count is reached.  The remaining statements (building
the `Cage(45, ...)` groups and the neighbors map) cannot raise. -/
def KillerSudoku.init (cages : List Cage) (board : List (List ℤ)) :
    Except String KillerSudoku :=
  if board.length ≠ 9 then .error "Board must be 9x9"
  else if board.any (fun r => decide (r.length ≠ 9)) then .error "Board must be 9x9"
  else if ¬ (cages.flatMap Cage.cells).Nodup then
    .error "Cell has been included in multiple cages"
  else if (cages.flatMap Cage.cells).dedup.length ≠ 81 then
    .error "Cages do not contain all 81 cells in the puzzle"
  else .ok ⟨board, cages⟩

/-- The cells of row `i`, in the order built at `killer_sudoku.py` lines 65-70. -/
def rowCells (i : ℤ) : List Cell := (List.range 9).map fun j => (i, (j : ℤ))

/-- The cells of column `j` (`killer_sudoku.py` lines 72-77). -/
def columnCells (j : ℤ) : List Cell := (List.range 9).map fun i => ((i : ℤ), j)

/-- The cells of subgrid `s`: cell `(i, j)` is placed in subgrid
`(i // 3) * 3 + (j // 3)` at slot `(i % 3) * 3 + (j % 3)`
(`killer_sudoku.py` lines 79-86), so subgrid `s` holds, in slot order,
the cells `((s / 3) * 3 + a, (s % 3) * 3 + b)`. -/
def subgridCells (s : ℕ) : List Cell :=
  (List.range 3).flatMap fun a =>
    (List.range 3).map fun b => (((s / 3 * 3 + a : ℕ) : ℤ), ((s % 3 * 3 + b : ℕ) : ℤ))

/-- Embeds `self._rows`, as cell lists (each is wrapped in `Cage(45, ...)` in the
source; the sum 45 of the wrapper plays no role in the neighbors map). -/
def rowsList : List (List Cell) := (List.range 9).map fun i => rowCells (i : ℤ)

/-- Embeds `self._columns`, as cell lists. -/
def columnsList : List (List Cell) := (List.range 9).map fun j => columnCells (j : ℤ)

/-- Embeds `self._subgrids`, as cell lists. -/
def subgridsList : List (List Cell) := (List.range 9).map fun s => subgridCells s

/-- Entry of one group kind of the neighbors map for cell `p`
(`killer_sudoku.py` lines 171-182): each group containing `p` assigns
`[c for c in group if c != p]` to the dict key, a later assignment
overwriting an earlier one, and a cell in no group gets no entry. -/
def groupEntry : List (List Cell) → Cell → Option (List Cell)
  | [], _ => none
  | g :: gs, p =>
    match groupEntry gs p with
    | some r => some r
    | none => if p ∈ g then some (g.filter (fun c => decide (c ≠ p))) else none

/-- The four entries `neighbors_map[(i,j)]` may hold. -/
structure NeighborEntry where
  row : Option (List Cell)
  column : Option (List Cell)
  subgrid : Option (List Cell)
  cage : Option (List Cell)
deriving DecidableEq

/-- Embeds `KillerSudoku._get_neighbors_map` (`killer_sudoku.py` lines 166-183). -/
def get_neighbors_map (cages : List Cage) (p : Cell) : NeighborEntry :=
  { row := groupEntry rowsList p
    column := groupEntry columnsList p
    subgrid := groupEntry subgridsList p
    cage := groupEntry (cages.map Cage.cells) p }

/-- The 81 board cells in row-major order. -/
def boardCellsList : List Cell :=
  (List.range 9).flatMap fun i => (List.range 9).map fun j => ((i : ℤ), (j : ℤ))

/-- Reads `board[i][j]`, for the in-range cells the groups produce. -/
def boardAt (b : List (List ℤ)) (p : Cell) : ℤ :=
  (b.getD p.1.toNat []).getD p.2.toNat 0

/-- State of `_Solver` (`killer_sudoku.py` lines 186-193): the puzzle
and the possibility dict giving every empty cell the domain `{1..9}`,
in row-major insertion order. -/
structure SolverState where
  ks : KillerSudoku
  empty_cell_possibilities : List (Cell × Finset ℤ)
deriving DecidableEq

/-- Embeds `_Solver.__init__`. -/
def Solver.init (ks : KillerSudoku) : SolverState :=
  ⟨ks, boardCellsList.filterMap fun p =>
    if boardAt ks.board p = 0 then some (p, ({1, 2, 3, 4, 5, 6, 7, 8, 9} : Finset ℤ))
    else none⟩

/-- Embeds `_Solver.solve` (`killer_sudoku.py` lines 195-201): the body is
`return #self._recursive_solve(self.board, self.empty_cell_possibilities)` —
the recursive call is commented out, so the method returns `None`
for every puzzle. -/
def Solver.solve (_s : SolverState) : Option (List (List ℤ)) := none

/-- The value a call of `KillerSudoku.solve` delivers to its caller.  The
`raisedError` outcome exists to distinguish a raised exception from an
exception object returned as the value of the call; the code below never
produces it, because `solve` executes `return UnsolvableError(...)`,
not `raise`. -/
inductive SolveOutcome where
  | board (b : List (List ℤ))
  | noneValue
  | returnedError (msg : String)
  | raisedError (msg : String)
deriving DecidableEq

/-- Embeds `KillerSudoku.solve` (`killer_sudoku.py` lines 91-98): build a `_Solver`,
take its result; a truthy result (a nonempty board list) is returned;
otherwise `raising` selects between `return UnsolvableError("No solution
found")` — the exception object returned as a value — and `return None`. -/
def KillerSudoku.solve (ks : KillerSudoku) (raising : Bool) : SolveOutcome :=
  match Solver.solve (Solver.init ks) with
  | some b =>
    if b ≠ [] then .board b
    else if raising then .returnedError "No solution found" else .noneValue
  | none => if raising then .returnedError "No solution found" else .noneValue

/-- Holds when `l` is a permutation of the digits 1..9: nine entries, each digit present.
(The constraints are stated in the source header, `killer_sudoku.py`
lines 13-17: nine unique values in each row, column and subgrid.) -/
def isPerm19 (l : List ℤ) : Bool :=
  decide (l.length = 9) && (List.range 9).all fun d => decide (((d : ℤ) + 1) ∈ l)

/-- The full Killer Sudoku constraint set (`killer_sudoku.py` lines 13-17):
a 9x9 fully assigned grid whose rows, columns and subgrids are each a
permutation of 1-9 and whose cages hold distinct values summing to the
declared sum of the cage. -/
def isFullSolution (cages : List Cage) (b : List (List ℤ)) : Bool :=
  decide (b.length = 9) && b.all (fun r => decide (r.length = 9)) &&
  rowsList.all (fun g => isPerm19 (g.map (boardAt b))) &&
  columnsList.all (fun g => isPerm19 (g.map (boardAt b))) &&
  subgridsList.all (fun g => isPerm19 (g.map (boardAt b))) &&
  cages.all (fun c =>
    decide ((c.cells.map (boardAt b)).Nodup) &&
    decide ((c.cells.map (boardAt b)).sum = c.sum))

/-- A Python value as it appears in the loop of `_fill_board`: the loop header
unpacks a dict KEY `(i, j)` into `blank_cell, possibilities`, so
`possibilities` is bound to the int `j`, not to a candidate set. -/
inductive PyVal where
  | int (n : ℤ)
  | digitSet (s : Finset ℤ)
deriving DecidableEq

/-- Python `len(x)`: defined for containers; on an `int` it raises
`TypeError`. -/
def pyLen : PyVal → Except String ℕ
  | .int _ => .error "TypeError: object of type int has no len()"
  | .digitSet s => .ok s.card

/-- Embeds `_Solver._fill_board` (`killer_sudoku.py` lines 229-237), modelled as its
body executes when entered with a board and a possibility dict.  The loop
header `for blank_cell, possibilities in empty_cell_possibilities` iterates
the KEYS of the dict; each key is an `(i, j)` int pair, so the unpacking binds
`blank_cell := i` and `possibilities := j` — an int — and
`len(possibilities)` raises `TypeError` on the first entry.  (As defined the
method also lacks the `self` parameter, so the call
`self._fill_board(board, empty_cell_possibilities)` in `_recursive_solve`
would already raise `TypeError` for its arity.)  On an empty dict the loops
do not run and nothing changes. -/
def fill_board (board : List (List ℤ)) (ecp : List (Cell × Finset ℤ)) :
    Except String (List (List ℤ) × List (Cell × Finset ℤ)) :=
  match ecp with
  | [] => .ok (board, ecp)
  | ((_i, j), _) :: _ =>
    match pyLen (.int j) with
    | .ok _ => .ok (board, ecp)
    | .error e => .error e

/-- Embeds `_Solver._constraint_reduce` (`killer_sudoku.py` lines 242-252): loops
over the constraint lists with a `pass` body and returns `False`; no domain
changes. -/
def constraint_reduce (s : SolverState) : SolverState × Bool := (s, false)

/-- Embeds `_Solver._last_remaining_reduce` (lines 254-259): `return False`. -/
def last_remaining_reduce (s : SolverState) : SolverState × Bool := (s, false)

/-- Embeds `_Solver._conjugate_pair_reduce` (lines 261-266): `return False`. -/
def conjugate_pair_reduce (s : SolverState) : SolverState × Bool := (s, false)

/-- Embeds `_Solver._conjugate_triple_reduce` (lines 268-273): `return False`. -/
def conjugate_triple_reduce (s : SolverState) : SolverState × Bool := (s, false)

/-- Embeds `_Solver._pointing_pair_reduce` (lines 275-279): `return False`. -/
def pointing_pair_reduce (s : SolverState) : SolverState × Bool := (s, false)

/-- Embeds `_Solver._hard_killer_combo_reduce` (lines 281-285): `return False`. -/
def hard_killer_combo_reduce (s : SolverState) : SolverState × Bool := (s, false)

/-- Modelled from the spec: the cage-combination generator of §4.5 is not
among the source files (it would live in the absent `static_data.py`).
The digits a Killer Sudoku cell may hold. -/
def sudokuDigits : Finset ℕ := Finset.Icc 1 9

/-- Modelled from the spec: the unfiltered combination sets, keyed by
`(k, T)` — all `k`-element subsets of the digits `1..9` summing to `T`. -/
def allCombos (k T : ℕ) : Finset (Finset ℕ) :=
  (Finset.powersetCard k sudokuDigits).filter (fun s => s.sum id = T)

/-- Modelled from the spec: `combinations(k, T, forbidden)` filters out of
the cached `(k, T)` set every combination intersecting `forbidden`. -/
def combinations (k T : ℕ) (forbidden : Finset ℕ) : Finset (Finset ℕ) :=
  (allCombos k T).filter (fun s => s ∩ forbidden = ∅)

/-- A JSON-derived cage record, as `test.py` passes after `json.load`:
either a dict with `sum` and `cells` entries or a two-element list
`[sum, cells]` (`cage.py` lines 52-56). -/
inductive PyCageRecord where
  | dictRec (s : ℤ) (cells : List Cell)
  | listRec (s : ℤ) (cells : List Cell)
deriving DecidableEq

/-- The argument given to `CageBuilder.__init__`: `None` (the default), a
`str` (as `evaluate.py` passes), or a concrete `list` of cage records (as
`test.py` passes from `json.load`).  A Python string is modelled by its
character list. -/
inductive PyInput where
  | noneV
  | strV (s : List Char)
  | listV (items : List PyCageRecord)
deriving DecidableEq

/-- Python `type(cages) is str`. -/
def typeIsStr : PyInput → Bool
  | .strV _ => true
  | _ => false

/-- Python `type(cages) == Iterable` (`cage.py` line 51): `type(x)` is the
concrete class of the argument (`NoneType`, `str`, `list`, `dict`, ...), while
`Iterable` names the `typing.Iterable` special form; the
concrete class of no object equals it, so the comparison is `False` for
every argument. -/
def typeEqTypingIterable : PyInput → Bool
  | _ => false

/-- Helper of `splitlines`: split a character list at each newline. -/
def splitlinesAux : List Char → List (List Char)
  | [] => [[]]
  | c :: rest =>
    match splitlinesAux rest with
    | [] => [[]]
    | cur :: done => if c = '\n' then [] :: cur :: done else (c :: cur) :: done

/-- Python `str.splitlines()` for newline-separated text.  (For a trailing
newline this keeps a final empty piece Python would drop; the guard
`if len(line) != 0` of the caller skips empty lines either way.) -/
def splitlines (s : List Char) : List (List Char) := splitlinesAux s

/-- Helper of `pySplitWs`: split at each whitespace character. -/
def pySplitWsAux : List Char → List (List Char)
  | [] => [[]]
  | c :: rest =>
    match pySplitWsAux rest with
    | [] => [[]]
    | cur :: done => if c.isWhitespace then [] :: cur :: done else (c :: cur) :: done

/-- Python `str.split()` with no argument: tokens between whitespace runs,
empty tokens discarded. -/
def pySplitWs (s : List Char) : List (List Char) :=
  (pySplitWsAux s).filter (fun t => !t.isEmpty)

/-- The natural number denoted by a nonempty all-digit character list. -/
def natOfDigits (l : List Char) : Option ℕ :=
  if l ≠ [] ∧ l.all Char.isDigit then
    some (l.foldl (fun a c => a * 10 + (c.toNat - 48)) 0)
  else none

/-- Python `int(s)` on a token: an optional minus sign and digits; anything
else raises `ValueError`. -/
def pyInt (s : List Char) : Except String ℤ :=
  match s with
  | '-' :: rest =>
    match natOfDigits rest with
    | some n => .ok (-(n : ℤ))
    | none => .error "ValueError: invalid literal for int()"
  | _ =>
    match natOfDigits s with
    | some n => .ok (n : ℤ)
    | none => .error "ValueError: invalid literal for int()"

/-- Python `int(c)` on a single character of a token. -/
def pyIntChar (c : Char) : Except String ℤ :=
  if c.isDigit then .ok ((c.toNat - 48 : ℕ) : ℤ)
  else .error "ValueError: invalid literal for int()"

/-- Evaluates `(int(n[0]), int(n[1]))` for a token `n` (`cage.py` line 49),
raising the Python `IndexError` on a token shorter than two characters. -/
def parseCell (n : List Char) : Except String Cell :=
  match n with
  | c0 :: c1 :: _ => do
    let a ← pyIntChar c0
    let b ← pyIntChar c1
    .ok (a, b)
  | [c0] => do
    let _ ← pyIntChar c0
    .error "IndexError: string index out of range"
  | [] => .error "IndexError: string index out of range"

/-- One line of the `CageBuilder` string format (`cage.py` lines 45-50):
an empty line is skipped; otherwise `sum cell cell ...`. -/
def parseLine (line : List Char) : Except String (Option Cage) :=
  if line.length = 0 then .ok none
  else
    match pySplitWs line with
    | [] => .error "IndexError: list index out of range"
    | s0 :: rest => do
      let s ← pyInt s0
      let cells ← rest.mapM parseCell
      let cage ← Cage.init s cells
      .ok (some cage)

/-- Embeds `CageBuilder.__init__` (`cage.py` lines 38-56), returning the `cages`
attribute the constructor leaves behind (or the exception it raises).  The
`type(cages) == Iterable` branch is kept as written even though
`typeEqTypingIterable` never holds. -/
def CageBuilder.init (inp : PyInput) : Except String (List Cage) :=
  if typeIsStr inp then
    match inp with
    | .strV s => do
      let cs ← (splitlines s).mapM parseLine
      .ok (cs.filterMap id)
    | _ => .ok []
  else if typeEqTypingIterable inp then
    match inp with
    | .listV items => items.mapM fun r =>
      match r with
      | .dictRec s cells => Cage.init s cells
      | .listRec s cells => Cage.init s cells
    | _ => .ok []
  else .ok []

/-- A full valid Sudoku grid: `b i j = (3i + ⌊i/3⌋ + j) % 9 + 1`. -/
def solvedBoard : List (List ℤ) :=
  (List.range 9).map fun i =>
    (List.range 9).map fun j => (((3 * i + i / 3 + j) % 9 + 1 : ℕ) : ℤ)

/-- One single-cell cage per board cell whose declared sum is the
`solvedBoard` value; together they partition the 81 cells and every cage
sum is met by `solvedBoard`. -/
def solvedCages : List Cage :=
  (List.range 9).flatMap fun i =>
    (List.range 9).map fun j =>
      ⟨(((3 * i + i / 3 + j) % 9 + 1 : ℕ) : ℤ), [((i : ℤ), (j : ℤ))]⟩

/-- 81 single-cell cages with declared sum 1: a structurally valid cage
partition. -/
def unitCages : List Cage :=
  (List.range 9).flatMap fun i =>
    (List.range 9).map fun j => ⟨1, [((i : ℤ), (j : ℤ))]⟩

/-- A pre-filled board whose row 0 holds two 5s — a row-constraint conflict
among filled cells. -/
def conflictBoard : List (List ℤ) :=
  ((5 : ℤ) :: 5 :: List.replicate 7 0) :: List.replicate 8 (List.replicate 9 0)

deriving instance DecidableEq for Except

/-- A list with no duplicates is exactly one whose `dedup` is not shorter —
the form of the uniqueness test in `Cage.init`. -/
theorem dedup_not_lt_iff (l : List Cell) : ¬ l.dedup.length < l.length ↔ l.Nodup := by
  constructor
  · intro h
    have hs := List.dedup_sublist l
    have hle := hs.length_le
    have heq : l.dedup = l := hs.eq_of_length (by omega)
    rw [← heq]
    exact List.nodup_dedup l
  · intro h
    rw [List.dedup_eq_self.mpr h]
    omega

/-- For the cell counts 1..9 the modelled lookup table holds the minimum sum
of distinct digits, `k(k+1)/2`, and the sum of the `k` largest digits. -/
theorem possible_cage_sum_min_max_eq (k : ℕ) (h1 : 1 ≤ k) (h2 : k ≤ 9) :
    possible_cage_sum_min_max k =
      (((k * (k + 1) / 2 : ℕ) : ℤ), (((Finset.Icc (10 - k) 9).sum id : ℕ) : ℤ)) := by
  interval_cases k <;> decide

/-- Membership in the 81-cell list is exactly the coordinate bounds. -/
theorem mem_boardCellsList (p : Cell) :
    p ∈ boardCellsList ↔ 0 ≤ p.1 ∧ p.1 ≤ 8 ∧ 0 ≤ p.2 ∧ p.2 ≤ 8 := by
  constructor
  · intro hp
    simp only [boardCellsList, List.mem_flatMap, List.mem_map, List.mem_range] at hp
    obtain ⟨i, hi, j, hj, rfl⟩ := hp
    simp at hj
    obtain ⟨a, ha, rfl⟩ := hj
    omega
  · rintro ⟨h1, h2, h3, h4⟩
    have hpe : p = ((p.1.toNat : ℤ), (p.2.toNat : ℤ)) := by
      simp [Prod.ext_iff]
      omega
    rw [hpe, boardCellsList, List.mem_flatMap]
    refine ⟨p.1.toNat, ?_, ?_⟩
    · rw [List.mem_range]
      omega
    · rw [List.mem_map]
      simp
      exact ⟨p.2.toNat, by omega, by simp [Int.ofNat_toNat]⟩

/-- The internal `Cage(45, ...)` constructions for the rows, columns and
subgrids in `KillerSudoku.__init__` all succeed, so modelling those groups
as bare cell lists loses no failure case. -/
theorem group_cages_constructible :
    (rowsList.all fun g => (Cage.init 45 g).isOk) = true ∧
    (columnsList.all fun g => (Cage.init 45 g).isOk) = true ∧
    (subgridsList.all fun g => (Cage.init 45 g).isOk) = true := by
  decide

/-- No group of the list containing the cell means no dict entry. -/
theorem groupEntry_eq_none (gs : List (List Cell)) (p : Cell)
    (h : ∀ g ∈ gs, p ∉ g) : groupEntry gs p = none := by
  induction gs with
  | nil => rfl
  | cons g0 gs ih =>
    unfold groupEntry
    rw [ih (fun g hg => h g (List.mem_cons_of_mem _ hg))]
    simp [h g0 (List.mem_cons_self _ _)]

/-- When exactly one group of the list contains the cell, its dict entry is
that group with the cell itself filtered out. -/
theorem groupEntry_unique (gs : List (List Cell)) (g : List Cell) (p : Cell)
    (hg : g ∈ gs) (hp : p ∈ g) (huniq : ∀ g' ∈ gs, p ∈ g' → g' = g) :
    groupEntry gs p = some (g.filter (fun q => decide (q ≠ p))) := by
  induction gs with
  | nil => cases hg
  | cons g0 gs ih =>
    by_cases hrest : ∃ g' ∈ gs, p ∈ g'
    · obtain ⟨g', hg', hpg'⟩ := hrest
      have hgg : g' = g := huniq g' (List.mem_cons_of_mem _ hg') hpg'
      subst hgg
      have hsome : groupEntry gs p = some (g'.filter (fun q => decide (q ≠ p))) :=
        ih hg' (fun g'' hg'' hpg'' => huniq g'' (List.mem_cons_of_mem _ hg'') hpg'')
      unfold groupEntry
      rw [hsome]
    · push_neg at hrest
      have hnone : groupEntry gs p = none := groupEntry_eq_none gs p hrest
      have hgeq : g = g0 := by
        rcases List.mem_cons.mp hg with h | h
        · exact h
        · exact absurd hp (hrest g h)
      subst hgeq
      unfold groupEntry
      rw [hnone]
      simp [hp]

/-- C1: for every constructed `KillerSudoku` and either `raising` flag,
`solve` returns either a board satisfying the full constraint set (every
row, column and subgrid a permutation of 1-9 and every cage distinct
digits meeting its declared sum) or an unsolvable outcome; a partially
assigned grid is never returned.  (The stubbed solver always reports the
unsolvable outcome, so the right disjunct always holds.) -/
theorem solve_full_solution_or_unsolvable (ks : KillerSudoku) (raising : Bool) :
    (∃ b, ks.solve raising = .board b ∧ isFullSolution ks.cages b = true) ∨
    ks.solve raising = .noneValue ∨
    ks.solve raising = .returnedError "No solution found" := by
  right
  unfold KillerSudoku.solve Solver.solve
  cases raising <;> simp

/-- C2: with `raising=False` the unsolvable outcome is returned as the value
`None` and no exception is raised; but with `raising=True` the code executes
`return UnsolvableError("No solution found")`, so the exception OBJECT is
returned as a value — it is never raised (`raisedError` is never produced),
contradicting the claim that opting in raises `UnsolvableError`. -/
theorem solve_raising_returns_exception_object (ks : KillerSudoku) :
    ks.solve false = .noneValue ∧
    ks.solve true = .returnedError "No solution found" ∧
    ∀ msg, ks.solve true ≠ .raisedError msg := by
  refine ⟨?_, ?_, ?_⟩ <;> simp [KillerSudoku.solve, Solver.solve]

/-- C3: a counterexample to idempotence.  `solvedBoard` is fully assigned
and satisfies every row, column, subgrid and cage constraint for the cage
partition `solvedCages` (whose cages all pass `Cage.init`), and the
`KillerSudoku` constructor accepts the pair — yet `solve` returns the
`None` outcome, not the board itself: the commented-out recursive call
makes the solver report every puzzle unsolvable. -/
theorem solve_on_solved_board_returns_none :
    KillerSudoku.init solvedCages solvedBoard = .ok ⟨solvedBoard, solvedCages⟩ ∧
    (solvedCages.all fun c => decide (Cage.init c.sum c.cells = .ok c)) = true ∧
    isFullSolution solvedCages solvedBoard = true ∧
    KillerSudoku.solve ⟨solvedBoard, solvedCages⟩ false = .noneValue ∧
    KillerSudoku.solve ⟨solvedBoard, solvedCages⟩ false ≠ .board solvedBoard := by
  decide

/-- C4: `Cage.init` succeeds exactly when the cell count is in [1,9], the
declared sum lies within the min/max range for that cell count — minimum
`k(k+1)/2`, maximum the sum of the `k` largest digits — the cells are
distinct, and every coordinate is in [0,8]; and the single-cell cage with
declared sum 10 is rejected for its sum. -/
theorem cage_init_ok_iff :
    (∀ (s : ℤ) (cells : List Cell),
      (∃ c, Cage.init s cells = .ok c) ↔
        (1 ≤ cells.length ∧ cells.length ≤ 9 ∧
         ((cells.length * (cells.length + 1) / 2 : ℕ) : ℤ) ≤ s ∧
         s ≤ (((Finset.Icc (10 - cells.length) 9).sum id : ℕ) : ℤ) ∧
         cells.Nodup ∧
         ∀ p ∈ cells, 0 ≤ p.1 ∧ p.1 ≤ 8 ∧ 0 ≤ p.2 ∧ p.2 ≤ 8)) ∧
    Cage.init 10 [((0 : ℤ), (0 : ℤ))] = .error "cage sum out of range for its cell count" := by
  constructor
  · intro s cells
    constructor
    · rintro ⟨c, hc⟩
      unfold Cage.init at hc
      split_ifs at hc with h1 h2 h3 h4
      have hl1 : 1 ≤ cells.length := by omega
      have hl2 : cells.length ≤ 9 := by omega
      rw [possible_cage_sum_min_max_eq _ hl1 hl2] at h2
      push_neg at h2
      refine ⟨hl1, hl2, h2.1, h2.2, (dedup_not_lt_iff cells).mp h3, ?_⟩
      intro p hp
      simp only [List.any_eq_true, Bool.or_eq_true, decide_eq_true_eq] at h4
      push_neg at h4
      have := h4 p hp
      omega
    · rintro ⟨hl1, hl2, hmin, hmax, hnd, hbd⟩
      refine ⟨⟨s, cells⟩, ?_⟩
      unfold Cage.init
      rw [if_neg (by omega)]
      rw [if_neg ?hsum]
      case hsum =>
        rw [possible_cage_sum_min_max_eq _ hl1 hl2]
        push_neg
        exact ⟨hmin, hmax⟩
      rw [if_neg ((dedup_not_lt_iff cells).mpr hnd)]
      rw [if_neg ?hany]
      case hany =>
        simp only [List.any_eq_true, Bool.or_eq_true, decide_eq_true_eq]
        push_neg
        intro p hp
        have := hbd p hp
        omega
  · decide

/-- Witness for C4: a two-cell cage with sum 3 is constructed successfully. -/
theorem cage_init_ok_iff_witness :
    ∃ c, Cage.init 3 [((0 : ℤ), (0 : ℤ)), (0, 1)] = .ok c :=
  (cage_init_ok_iff.1 3 [((0 : ℤ), (0 : ℤ)), (0, 1)]).mpr (by decide)

/-- C5: for cages satisfying the constructor invariants, `KillerSudoku.init`
with the default board succeeds exactly when no cell lies in two cages and
the union of the cage cells is exactly the 81 board cells. -/
theorem killer_sudoku_init_ok_iff (cages : List Cage) (hv : ∀ c ∈ cages, CageValid c) :
    (KillerSudoku.init cages defaultBoard).isOk = true ↔
      (cages.Pairwise (fun c₁ c₂ => ∀ p ∈ c₁.cells, p ∉ c₂.cells) ∧
       ∀ p : Cell, (∃ c ∈ cages, p ∈ c.cells) ↔ p ∈ boardCellsList) := by
  have hb1 : ¬ (defaultBoard.length ≠ 9) := by decide
  have hb2 : ¬ (defaultBoard.any (fun r => decide (r.length ≠ 9)) = true) := by decide
  have key : (KillerSudoku.init cages defaultBoard).isOk = true ↔
      ((cages.flatMap Cage.cells).Nodup ∧ (cages.flatMap Cage.cells).dedup.length = 81) := by
    unfold KillerSudoku.init
    rw [if_neg hb1, if_neg hb2]
    by_cases hnd : (cages.flatMap Cage.cells).Nodup
    · rw [if_neg (by simpa using hnd)]
      by_cases hlen : (cages.flatMap Cage.cells).dedup.length = 81
      · rw [if_neg (by simpa using hlen)]
        simp [hnd, hlen, Except.isOk, Except.toBool]
      · rw [if_pos (by simpa using hlen)]
        simp [hlen, Except.isOk, Except.toBool]
    · rw [if_pos (by simpa using hnd)]
      simp [hnd, Except.isOk, Except.toBool]
  rw [key]
  have hbn : boardCellsList.Nodup := by decide
  have hbl : boardCellsList.length = 81 := by decide
  constructor
  · rintro ⟨hnd, hlen⟩
    obtain ⟨heach, hpair⟩ := List.nodup_flatMap.mp hnd
    have hlen' : (cages.flatMap Cage.cells).length = 81 := by
      rw [← List.dedup_eq_self.mpr hnd]
      exact hlen
    have hsub : (cages.flatMap Cage.cells).toFinset ⊆ boardCellsList.toFinset := by
      intro p hp
      rw [List.mem_toFinset] at hp ⊢
      rw [List.mem_flatMap] at hp
      obtain ⟨c, hc, hpc⟩ := hp
      exact (mem_boardCellsList p).mpr ((hv c hc).2.2.2.2.2 p hpc)
    have hfin : (cages.flatMap Cage.cells).toFinset = boardCellsList.toFinset := by
      apply Finset.eq_of_subset_of_card_le hsub
      rw [List.toFinset_card_of_nodup hnd, List.toFinset_card_of_nodup hbn, hlen', hbl]
    constructor
    · exact hpair.imp (fun h => by intro p hp; exact h hp)
    · intro p
      rw [← List.mem_flatMap, ← List.mem_toFinset, hfin, List.mem_toFinset]
  · rintro ⟨hpw, hcov⟩
    have hnd : (cages.flatMap Cage.cells).Nodup := by
      rw [List.nodup_flatMap]
      exact ⟨fun c hc => (hv c hc).2.2.2.2.1, hpw.imp (fun h => by intro p hp; exact h p hp)⟩
    refine ⟨hnd, ?_⟩
    rw [List.dedup_eq_self.mpr hnd]
    have hfin : (cages.flatMap Cage.cells).toFinset = boardCellsList.toFinset := by
      ext p
      rw [List.mem_toFinset, List.mem_toFinset, List.mem_flatMap]
      exact hcov p
    calc (cages.flatMap Cage.cells).length
        = (cages.flatMap Cage.cells).toFinset.card := (List.toFinset_card_of_nodup hnd).symm
      _ = boardCellsList.toFinset.card := by rw [hfin]
      _ = 81 := by rw [List.toFinset_card_of_nodup hbn, hbl]

/-- Witness for C5: the 81 single-cell cages are pairwise disjoint and cover
exactly the board cells, obtained by applying the theorem to the concrete
accepting run of the constructor. -/
theorem killer_sudoku_init_ok_iff_witness :
    unitCages.Pairwise (fun c₁ c₂ => ∀ p ∈ c₁.cells, p ∉ c₂.cells) ∧
    ∀ p : Cell, (∃ c ∈ unitCages, p ∈ c.cells) ↔ p ∈ boardCellsList :=
  (killer_sudoku_init_ok_iff unitCages (by decide)).mp (by decide)

/-- C6: the constructor accepts a pre-filled board that violates a group
constraint.  `conflictBoard` holds the value 5 at both `(0,0)` and `(0,1)`,
two cells of the same row group, yet `KillerSudoku.init` returns the object
— the check of board values is an unimplemented TODO (`killer_sudoku.py`
line 57), so the promised `InvalidPuzzleError` is never raised. -/
theorem conflicting_prefilled_board_accepted :
    boardAt conflictBoard (0, 0) = 5 ∧ boardAt conflictBoard (0, 1) = 5 ∧
    ((0 : ℤ), (1 : ℤ)) ∈ rowCells 0 ∧ ((0 : ℤ), (0 : ℤ)) ∈ rowCells 0 ∧
    KillerSudoku.init unitCages conflictBoard = .ok ⟨conflictBoard, unitCages⟩ := by
  decide

/-- C7: `combinations k T forbidden` is exactly the set of `k`-element
subsets of the digits 1..9 avoiding `forbidden` that sum to `T`, and the
three concrete instances of the spec hold. -/
theorem combinations_spec :
    (∀ (k T : ℕ) (forbidden : Finset ℕ) (s : Finset ℕ),
      s ∈ combinations k T forbidden ↔
        s ⊆ sudokuDigits \ forbidden ∧ s.card = k ∧ s.sum id = T) ∧
    combinations 2 3 ∅ = {({1, 2} : Finset ℕ)} ∧
    combinations 2 17 ∅ = {({8, 9} : Finset ℕ)} ∧
    combinations 3 6 ∅ = {({1, 2, 3} : Finset ℕ)} := by
  refine ⟨?_, by decide, by decide, by decide⟩
  intro k T forbidden s
  simp only [combinations, allCombos, Finset.mem_filter, Finset.mem_powersetCard,
    Finset.subset_sdiff, ← Finset.disjoint_iff_inter_eq_empty]
  tauto

/-- C8: for every board cell, the row, column and subgrid entries of the
neighbors map are exactly the 8 other cells of the corresponding group —
the subgrid being the one of index `(i/3)*3 + j/3` — never containing the
cell itself; and for a cage list in which exactly one cage contains the
cell, the cage entry is exactly the other cells of that cage. -/
theorem neighbors_map_spec :
    (∀ p ∈ boardCellsList,
      (groupEntry rowsList p = some ((rowCells p.1).filter (fun c => decide (c ≠ p))) ∧
       ((rowCells p.1).filter (fun c => decide (c ≠ p))).length = 8 ∧
       p ∉ (rowCells p.1).filter (fun c => decide (c ≠ p))) ∧
      (groupEntry columnsList p = some ((columnCells p.2).filter (fun c => decide (c ≠ p))) ∧
       ((columnCells p.2).filter (fun c => decide (c ≠ p))).length = 8 ∧
       p ∉ (columnCells p.2).filter (fun c => decide (c ≠ p))) ∧
      (groupEntry subgridsList p =
         some ((subgridCells (p.1 / 3 * 3 + p.2 / 3).toNat).filter (fun c => decide (c ≠ p))) ∧
       ((subgridCells (p.1 / 3 * 3 + p.2 / 3).toNat).filter (fun c => decide (c ≠ p))).length = 8 ∧
       p ∉ (subgridCells (p.1 / 3 * 3 + p.2 / 3).toNat).filter (fun c => decide (c ≠ p)))) ∧
    (∀ (cages : List Cage) (c : Cage) (p : Cell), c ∈ cages → p ∈ c.cells →
      (∀ c' ∈ cages, p ∈ c'.cells → c' = c) →
      (get_neighbors_map cages p).cage = some (c.cells.filter (fun q => decide (q ≠ p)))) := by
  constructor
  · decide
  · intro cages c p hc hp huniq
    unfold get_neighbors_map
    apply groupEntry_unique _ c.cells p (List.mem_map_of_mem _ hc) hp
    intro g' hg' hpg'
    rw [List.mem_map] at hg'
    obtain ⟨c', hc', rfl⟩ := hg'
    rw [huniq c' hc' hpg']

/-- Witness for C8: the row entry at `(0,0)` and, for the 81 single-cell
cages, the cage entry at `(0,0)`, both by applying the theorem at that
cell. -/
theorem neighbors_map_spec_witness :
    groupEntry rowsList ((0 : ℤ), (0 : ℤ)) =
      some ((rowCells 0).filter (fun c => decide (c ≠ ((0 : ℤ), (0 : ℤ))))) ∧
    (get_neighbors_map unitCages ((0 : ℤ), (0 : ℤ))).cage =
      some (([((0 : ℤ), (0 : ℤ))] : List Cell).filter (fun q => decide (q ≠ ((0 : ℤ), (0 : ℤ))))) :=
  ⟨((neighbors_map_spec.1 ((0 : ℤ), (0 : ℤ)) (by decide)).1).1,
   neighbors_map_spec.2 unitCages ⟨1, [((0 : ℤ), (0 : ℤ))]⟩ ((0 : ℤ), (0 : ℤ))
     (by decide) (by decide) (by decide)⟩

/-- C9: the board-filling step never behaves as claimed — on any non-empty
possibility dict, `_fill_board` raises `TypeError` at its first iteration
(the dict is iterated without `.items()`, binding an int as the possibility
set), so it can never remove a domain entry; on an empty dict nothing
changes; and every propagation rule returns `False` leaving the state
untouched (so no step ever adds a candidate back). -/
theorem fill_board_raises_type_error :
    (∀ (board : List (List ℤ)) (p : Cell) (ds : Finset ℤ) (rest : List (Cell × Finset ℤ)),
      fill_board board ((p, ds) :: rest) =
        .error "TypeError: object of type int has no len()") ∧
    (∀ board : List (List ℤ), fill_board board [] = .ok (board, [])) ∧
    (∀ s : SolverState,
      constraint_reduce s = (s, false) ∧ last_remaining_reduce s = (s, false) ∧
      conjugate_pair_reduce s = (s, false) ∧ conjugate_triple_reduce s = (s, false) ∧
      pointing_pair_reduce s = (s, false) ∧ hard_killer_combo_reduce s = (s, false)) := by
  refine ⟨?_, ?_, ?_⟩
  · rintro board ⟨i, j⟩ ds rest
    rfl
  · intro board
    rfl
  · intro s
    exact ⟨rfl, rfl, rfl, rfl, rfl, rfl⟩

/-- C10: a `CageBuilder` built from any concrete container (or from `None`)
ends with an empty cage list, because `type(cages) == Iterable` never
holds; only a string argument can yield a non-empty list, as the concrete
string "3 00 01" does. -/
theorem cage_builder_container_empty :
    (∀ items : List PyCageRecord, CageBuilder.init (.listV items) = .ok []) ∧
    CageBuilder.init .noneV = .ok [] ∧
    CageBuilder.init (.strV "3 00 01".data) = .ok [⟨3, [(0, 0), (0, 1)]⟩] ∧
    ([(⟨3, [(0, 0), (0, 1)]⟩ : Cage)] : List Cage) ≠ [] := by
  refine ⟨?_, by decide, by decide, by decide⟩
  intro items
  rfl

end PyKiller
